import Mathlib

/-!
# Verification of the mrusty argument-marshaling macros (`src/macros.rs`)

This file shallowly embeds the code generated by the `mrfn!` macro of the
mrusty crate (`src/macros.rs`): the signature compiler (`@sig` arms), the
slot layout (`@init` / `@args` arms), the argument extractor call, the type
converter (`@conv` arms), the receiver binder (`@slf` arms), and the
composed entry points (the four `mrfn!` closure forms).

The repository snapshot contains only `macros.rs` and `build.rs`.  The
crate's mruby module (with `Value::to_vec`, `to_class`, `to_obj`, the
`Rc<RefCell<T>>` borrows, `mrb_get_args`, and the panic-to-`RustPanic`
rescue at the entry-point boundary) is not present; those collaborators are
modelled from the specification and from the documentation inside
`macros.rs` (line 20: "Any `panic!` call within the closure will get
rescued in a `RustPanic` mruby `Exception`.").  Definitions modelled this
way carry a doc comment starting with `Modelled from the spec:`.
-/

set_option autoImplicit false

namespace Mrusty

/-- The declared parameter / receiver type tags accepted by `mrfn!`
(`macros.rs` doc lines 10–18 and the `@sig`/`@init`/`@conv`/`@slf` arms):
`bool`, `i32`, `f64`, `(&str)`, `(Vec<Value>)`, `Class`, `Value`,
`(&mut T)`, `(&T)`.  Host types `T` are identified by a numeric tag
(standing for Rust's `TypeId`). -/
inductive ParamType where
  | bool
  | i32
  | f64
  | str
  | vec
  | cls
  | value
  | refMut (t : Nat)
  | ref (t : Nat)
deriving DecidableEq

/-- The single-character mruby format code assigned to each declared type
by the `@sig` arms of `mrfn!` (`macros.rs` lines 173–184). -/
def sigCode : ParamType → String
  | .bool => "b"
  | .i32 => "i"
  | .f64 => "f"
  | .str => "z"
  | .vec => "A"
  | .cls => "C"
  | .value => "o"
  | .refMut _ => "o"
  | .ref _ => "o"

/-- The character behind each one-character `sigCode` string. -/
def sigChar : ParamType → Char
  | .bool => 'b'
  | .i32 => 'i'
  | .f64 => 'f'
  | .str => 'z'
  | .vec => 'A'
  | .cls => 'C'
  | .value => 'o'
  | .refMut _ => 'o'
  | .ref _ => 'o'

/-- The signature compiler: `mrfn!(@sig t1, ..., tn)` expands to
`concat!(@sig t1, ..., @sig tn)` (`macros.rs` line 184), i.e. the
concatenation of the per-parameter codes in declared order. -/
def compileSig : List ParamType → String
  | [] => ""
  | t :: ts => sigCode t ++ compileSig ts

/-- The four closure forms accepted by `mrfn!` (`macros.rs` lines
295–360): plain, trailing block (`; &blk`), variadic tail (`; args`),
and variadic tail plus block (`; args, &blk`). -/
inductive EntryForm where
  | plain
  | blk
  | rest
  | restBlk
deriving DecidableEq

/-- The full signature string handed to `mrb_get_args` by each `mrfn!`
form: the compiled parameter codes, plus `"&"` for the block form
(line 320), `"*"` for the variadic form (line 336), and `"*&"` for the
variadic-plus-block form (line 352). -/
def fullSig (ps : List ParamType) : EntryForm → String
  | .plain => compileSig ps
  | .blk => compileSig ps ++ "&"
  | .rest => compileSig ps ++ "*"
  | .restBlk => compileSig ps ++ "*&"

theorem string_data_append (a b : String) : (a ++ b).data = a.data ++ b.data := rfl

theorem sigCode_data (t : ParamType) : (sigCode t).data = [sigChar t] := by
  cases t <;> rfl

theorem compileSig_data (ps : List ParamType) :
    (compileSig ps).data = ps.map sigChar := by
  induction ps with
  | nil => rfl
  | cons t ts ih =>
      simp [compileSig, string_data_append, sigCode_data, ih]

theorem sigChar_ne_star (t : ParamType) : sigChar t ≠ '*' := by
  cases t <;> simp [sigChar]

theorem sigChar_ne_amp (t : ParamType) : sigChar t ≠ '&' := by
  cases t <;> simp [sigChar]

/-- C4: For every declared parameter list, the compiled signature
assigns exactly one reserved single-character code per parameter, in
declared order (so its length equals the fixed-arity parameter count);
boolean, integer, float, text, value-list and class each get a distinct
code, while `Value`, `(&T)` and `(&mut T)` all get the same generic
runtime-value code `'o'`.  Compilation (`compileSig`) is a pure, total
Lean function, so it has no error conditions. -/
theorem sig_compiler_correct :
    (∀ ps : List ParamType, (compileSig ps).data = ps.map sigChar) ∧
    (∀ ps : List ParamType, (compileSig ps).length = ps.length) ∧
    ([sigChar .bool, sigChar .i32, sigChar .f64, sigChar .str,
      sigChar .vec, sigChar .cls].Pairwise (· ≠ ·)) ∧
    (∀ t : Nat, sigChar .value = 'o' ∧ sigChar (.ref t) = 'o' ∧
      sigChar (.refMut t) = 'o') ∧
    (∀ t : Nat, sigChar .bool ≠ 'o' ∧ sigChar .i32 ≠ 'o' ∧
      sigChar .f64 ≠ 'o' ∧ sigChar .str ≠ 'o' ∧ sigChar .vec ≠ 'o' ∧
      sigChar .cls ≠ 'o' ∧ sigChar (.ref t) = sigChar (.refMut t)) := by
  refine ⟨compileSig_data, ?_, by decide, fun t => ⟨rfl, rfl, rfl⟩,
    fun t => ⟨by decide, by decide, by decide, by decide, by decide, by decide, rfl⟩⟩
  intro ps
  show (compileSig ps).data.length = ps.length
  rw [compileSig_data]
  exact List.length_map ps sigChar

/-- C9: Appending the variadic-tail marker appends exactly the one
reserved trailing code `'*'`; appending the block marker appends the
distinct reserved code `'&'`; when both are declared the tail code
comes before the block code.  Both codes are reserved: no declared
parameter compiles to them. -/
theorem trailing_markers_correct :
    (∀ ps : List ParamType, (fullSig ps .rest).data = (fullSig ps .plain).data ++ ['*']) ∧
    (∀ ps : List ParamType, (fullSig ps .blk).data = (fullSig ps .plain).data ++ ['&']) ∧
    (∀ ps : List ParamType,
      (fullSig ps .restBlk).data = (fullSig ps .plain).data ++ ['*', '&']) ∧
    ('*' ≠ '&') ∧
    (∀ t : ParamType, sigChar t ≠ '*' ∧ sigChar t ≠ '&') := by
  refine ⟨?_, ?_, ?_, by decide, fun t => ⟨sigChar_ne_star t, sigChar_ne_amp t⟩⟩ <;>
    intro ps <;> simp [fullSig, string_data_append]

/-- A raw tagged mruby word (`MrValue` in the source): the runtime's
dynamically-typed handle.  Strings carry their C bytes, arrays their
elements, classes a class id, and data objects the class tag of the host
type backing them plus an object id indexing the Host Object Binding. -/
inductive MrValue where
  | boolean (b : Bool)
  | fixnum (n : Int)
  | float (bits : Nat)
  | mrstring (bytes : List Nat)
  | array (elems : List MrValue)
  | mrclass (id : Nat)
  | object (classTag : Nat) (objId : Nat)
  | nil

/-- The per-object runtime-checked borrow state of a Host Object Binding
(the `Rc<RefCell<T>>` state behind `to_obj`): unborrowed, shared-borrowed
`n+1` times, or exclusively borrowed. -/
inductive BorrowState where
  | free
  | shared (n : Nat)
  | exclusive
deriving DecidableEq

/-- The runtime state visible to this layer: the borrow state of every
Host Object Binding (an association list over object ids, absent means
unborrowed) and an instrumentation counter of `mrb_get_args`
invocations. -/
structure Rt where
  borrows : List (Nat × BorrowState)
  getArgsCalls : Nat

def lookupB : List (Nat × BorrowState) → Nat → BorrowState
  | [], _ => .free
  | (k, s) :: rest, oid => if k = oid then s else lookupB rest oid

def setB : List (Nat × BorrowState) → Nat → BorrowState → List (Nat × BorrowState)
  | [], oid, s => [(oid, s)]
  | (k, t) :: rest, oid, s =>
      if k = oid then (oid, s) :: rest else (k, t) :: setB rest oid s

def lookupBorrow (rt : Rt) (oid : Nat) : BorrowState := lookupB rt.borrows oid

def setBorrow (rt : Rt) (oid : Nat) (s : BorrowState) : Rt :=
  ⟨setB rt.borrows oid s, rt.getArgsCalls⟩

def bumpCalls (rt : Rt) : Rt := ⟨rt.borrows, rt.getArgsCalls + 1⟩

/-- A host-side fault: a Rust `panic!` (here, always from an `unwrap()`
on a failed conversion or from the closure body itself). -/
inductive HostFault where
  | panicWith (msg : String)

/-- A runtime-level mruby exception, identified by its exception class
name and message: the only failure shape a calling script can observe. -/
structure RubyExc where
  excClass : String
  msg : String

/-- An error inside the marshaling pipeline: either a runtime-level
exception raised by the runtime itself (extraction), or a host fault
(a panic) that the entry-point boundary still has to rescue. -/
inductive MarshalErr where
  | rubyErr (e : RubyExc)
  | fault (f : HostFault)

/-- Modelled from the spec: the entry-point boundary rescue
(`macros.rs` line 20: "Any `panic!` call within the closure will get
rescued in a `RustPanic` mruby `Exception`."; spec §4.6/§7).  A host
fault is converted into a runtime-level exception of class `RustPanic`
carrying the original failure's message. -/
def rescuePanic : HostFault → RubyExc
  | .panicWith msg => ⟨"RustPanic", msg⟩

def castErrMsg : String := "called Result::unwrap() on an Err value: Cast"

def utf8ErrMsg : String := "called Result::unwrap() on an Err value: Utf8Error"

def borrowErrMsg : String := "already mutably borrowed: BorrowError"

def borrowMutErrMsg : String := "already borrowed: BorrowMutError"

/-- `Result::unwrap()`: `Ok` passes through, `Err` panics with the given
message. -/
def unwrapOr {α : Type} (o : Option α) (msg : String) : Except HostFault α :=
  match o with
  | some a => .ok a
  | none => .error (.panicWith msg)

def utf8IsCont (b : Nat) : Bool := decide (128 ≤ b ∧ b < 192)

/-- Decode one UTF-8 scalar from a first byte and the following bytes,
returning the code point and the remaining bytes. -/
def utf8Step (b : Nat) (bs : List Nat) : Option (Nat × List Nat) :=
  if b < 128 then some (b, bs)
  else if b < 194 then none
  else if b < 224 then
    match bs with
    | b1 :: rest =>
        if utf8IsCont b1 then some ((b - 192) * 64 + (b1 - 128), rest) else none
    | [] => none
  else if b < 240 then
    match bs with
    | b1 :: b2 :: rest =>
        if utf8IsCont b1 ∧ utf8IsCont b2 then
          let cp := (b - 224) * 4096 + (b1 - 128) * 64 + (b2 - 128)
          if 2048 ≤ cp ∧ ¬ (55296 ≤ cp ∧ cp < 57344) then some (cp, rest) else none
        else none
    | _ => none
  else if b < 245 then
    match bs with
    | b1 :: b2 :: b3 :: rest =>
        if utf8IsCont b1 ∧ utf8IsCont b2 ∧ utf8IsCont b3 then
          let cp := (b - 240) * 262144 + (b1 - 128) * 4096 + (b2 - 128) * 64 + (b3 - 128)
          if 65536 ≤ cp ∧ cp < 1114112 then some (cp, rest) else none
        else none
    | _ => none
  else none

def utf8DecodeFuel : Nat → List Nat → Option (List Nat)
  | _, [] => some []
  | 0, _ :: _ => none
  | fuel + 1, b :: bs =>
      match utf8Step b bs with
      | some (cp, rest) => (utf8DecodeFuel fuel rest).map (cp :: ·)
      | none => none

/-- UTF-8 validation and decoding of the C-string bytes, as performed by
`CStr::from_ptr(..).to_str()` (`macros.rs` line 249); the result is the
code-point sequence of the borrowed `&str`. -/
def utf8Decode (bytes : List Nat) : Option (List Nat) :=
  utf8DecodeFuel bytes.length bytes

/-- The truncating Rust cast `as i32` applied to the extracted `MrInt`
(`macros.rs` line 243). -/
def wrapI32 (n : Int) : Int := (n + 2147483648) % 4294967296 - 2147483648

theorem wrapI32_range (n : Int) :
    -2147483648 ≤ wrapI32 n ∧ wrapI32 n < 2147483648 := by
  unfold wrapI32
  omega

/-- The call-scoped native storage cell reserved by the `@init` arms of
`mrfn!` (`macros.rs` lines 162–170), as written by the extractor:
`bool` for `bool`, `MrInt` for `i32`, `MrFloat` for `f64`, a raw
C-string pointer for `(&str)`, and a raw `MrValue` handle for
`(Vec<Value>)`, `Class`, `Value`, `(&mut T)` and `(&T)`. -/
inductive RawSlot where
  | bool (b : Bool)
  | int (n : Int)
  | float (bits : Nat)
  | cstr (bytes : List Nat)
  | value (v : MrValue)

/-- One argument at the mruby call site: the positional arguments plus
the optional block. -/
structure CallSite where
  args : List MrValue
  blockArg : Option MrValue

/-- The reserved cells as filled by one `mrb_get_args` invocation: one
slot per fixed-arity code in declared order, the variadic tail array
(present exactly when the signature ends in `'*'`), and the raw block
handle (present exactly when the signature ends in `'&'`). -/
structure ExtractOut where
  slots : List RawSlot
  tail : Option (List MrValue)
  blockSlot : Option MrValue

def argErr : RubyExc := ⟨"ArgumentError", "wrong number of arguments"⟩

def typeErr : RubyExc := ⟨"ArgumentError", "argument type does not satisfy signature"⟩

def sigErr : RubyExc := ⟨"ArgumentError", "malformed argument specifier"⟩

/-- Modelled from the spec: one step of the runtime's native variadic
argument-parsing primitive (`mrb_get_args`, an external collaborator,
spec §4.3/§6 `extractArguments`): per signature code, check the
call-site value against the type the code implies and write it into
the reserved cell's representation. -/
def extractOne (c : Char) (v : MrValue) : Option RawSlot :=
  if c = 'b' then match v with | .boolean b => some (.bool b) | _ => none
  else if c = 'i' then match v with | .fixnum n => some (.int n) | _ => none
  else if c = 'f' then match v with | .float x => some (.float x) | _ => none
  else if c = 'z' then match v with | .mrstring bs => some (.cstr bs) | _ => none
  else if c = 'A' then match v with | .array es => some (.value (.array es)) | _ => none
  else if c = 'C' then match v with | .mrclass i => some (.value (.mrclass i)) | _ => none
  else if c = 'o' then some (.value v)
  else none

/-- Modelled from the spec: the runtime's variadic argument-parsing
primitive walking the signature string (spec §4.3): each fixed code
consumes one positional argument; `'*'` consumes the entire remaining
tail (zero length is valid); `'&'` fills the block cell with the block
handle, or with the runtime's "no block given" sentinel (`nil`) when
the call site supplied none; a call whose arity or argument types do
not satisfy the signature raises a runtime-level argument-error
condition before any closure code runs. -/
def mrbLoop (sig : List Char) (vs : List MrValue) (blkArg : Option MrValue) :
    Except RubyExc ExtractOut :=
  match sig with
  | [] =>
      match vs with
      | [] => .ok ⟨[], none, none⟩
      | _ :: _ => .error argErr
  | c :: rest =>
      if c = '*' then
        match rest with
        | [] => .ok ⟨[], some vs, none⟩
        | c2 :: rest2 =>
            match rest2 with
            | [] =>
                if c2 = '&' then .ok ⟨[], some vs, some (blkArg.getD MrValue.nil)⟩
                else .error sigErr
            | _ :: _ => .error sigErr
      else if c = '&' then
        match rest with
        | [] =>
            match vs with
            | [] => .ok ⟨[], none, some (blkArg.getD MrValue.nil)⟩
            | _ :: _ => .error argErr
        | _ :: _ => .error sigErr
      else
        match vs with
        | [] => .error argErr
        | v :: vs' =>
            match extractOne c v with
            | none => .error typeErr
            | some s =>
                match mrbLoop rest vs' blkArg with
                | .error e => .error e
                | .ok out => .ok ⟨s :: out.slots, out.tail, out.blockSlot⟩

/-- Modelled from the spec: the single `mrb_get_args` call made by every
generated entry point (`macros.rs` lines 199–201, 211–212, 228–229);
the instrumentation counter records that the primitive ran exactly
once per invocation. -/
def mrb_get_args (sig : List Char) (rt : Rt) (call : CallSite) :
    Rt × Except RubyExc ExtractOut :=
  (bumpCalls rt, mrbLoop sig call.args call.blockArg)

/-- Modelled from the spec: `Value::to_vec` (the runtime `decompose`
collaborator, spec §6) lives in the crate's missing mruby module; it
decomposes an array handle into its ordered elements and fails on any
other kind of handle. -/
def to_vec : MrValue → Option (List MrValue)
  | .array es => some es
  | _ => none

/-- Modelled from the spec: `Value::to_class` from the missing mruby
module; succeeds only on class handles. -/
def to_class : MrValue → Option Nat
  | .mrclass i => some i
  | _ => none

/-- Modelled from the spec: `Value::to_obj::<T>` from the missing mruby
module (spec §6 `lookupBinding` plus the class-tag check): succeeds
only on a data object whose class tag matches the requested host type
exactly, returning its Host Object Binding id. -/
def to_obj (t : Nat) : MrValue → Option Nat
  | .object tag oid => if tag = t then some oid else none
  | _ => none

/-- Modelled from the spec: `Value::to_bool` from the missing mruby
module. -/
def to_bool : MrValue → Option Bool
  | .boolean b => some b
  | _ => none

/-- Modelled from the spec: `Value::to_i32` from the missing mruby
module. -/
def to_i32 : MrValue → Option Int
  | .fixnum n => some (wrapI32 n)
  | _ => none

/-- Modelled from the spec: `Value::to_f64` from the missing mruby
module. -/
def to_f64 : MrValue → Option Nat
  | .float x => some x
  | _ => none

/-- Modelled from the spec: `Value::to_str` from the missing mruby
module; requires a string handle with valid UTF-8 contents. -/
def to_str : MrValue → Option (List Nat)
  | .mrstring bs => utf8Decode bs
  | _ => none

/-- The native value a converted slot finally holds inside the closure
body: the exact Rust-side type of each `@conv` / `@slf` result. -/
inductive Native where
  | bool (b : Bool)
  | i32 (n : Int)
  | f64 (bits : Nat)
  | str (codepoints : List Nat)
  | vec (elems : List MrValue)
  | cls (id : Nat)
  | val (v : MrValue)
  | ref (t : Nat) (oid : Nat)
  | refMut (t : Nat) (oid : Nat)

/-- Modelled from the spec: `RefCell::borrow` on the Host Object Binding
(`macros.rs` line 266 `$name.borrow()`): panics iff the binding is
exclusively borrowed, otherwise increments the shared count. -/
def borrowShared (rt : Rt) (oid : Nat) : Except HostFault Rt :=
  match lookupBorrow rt oid with
  | .exclusive => .error (.panicWith borrowErrMsg)
  | .free => .ok (setBorrow rt oid (.shared 0))
  | .shared n => .ok (setBorrow rt oid (.shared (n + 1)))

/-- Modelled from the spec: `RefCell::borrow_mut` on the Host Object
Binding (`macros.rs` line 262 `$name.borrow_mut()`): panics unless the
binding is unborrowed. -/
def borrowExclusive (rt : Rt) (oid : Nat) : Except HostFault Rt :=
  match lookupBorrow rt oid with
  | .free => .ok (setBorrow rt oid .exclusive)
  | _ => .error (.panicWith borrowMutErrMsg)

/-- The type converter: the `@conv` arms of `mrfn!` (`macros.rs` lines
239–268), applied to one extracted slot.  Scalars pass through with the
`as i32` / `as f64` cast; `(&str)` runs `CStr::from_ptr(..).to_str().unwrap()`;
`(Vec<Value>)` runs `to_vec().unwrap()`; `Class` runs `to_class().unwrap()`;
`Value` wraps the raw handle; `(&mut T)` / `(&T)` run
`to_obj::<T>().unwrap()` followed by `borrow_mut()` / `borrow()`.
Returns the converted native value, the updated runtime state, and the
borrow acquired (if any).  The off-diagonal slot shapes cannot occur:
`@init` reserves a cell whose representation is fixed by the same type
token, so they are mapped to a host fault. -/
def convSlot (rt : Rt) : ParamType → RawSlot → Except HostFault (Rt × Native × List (Bool × Nat))
  | .bool, .bool b => .ok (rt, .bool b, [])
  | .i32, .int n => .ok (rt, .i32 (wrapI32 n), [])
  | .f64, .float x => .ok (rt, .f64 x, [])
  | .str, .cstr bs =>
      match utf8Decode bs with
      | some cps => .ok (rt, .str cps, [])
      | none => .error (.panicWith utf8ErrMsg)
  | .vec, .value v =>
      match to_vec v with
      | some es => .ok (rt, .vec es, [])
      | none => .error (.panicWith castErrMsg)
  | .cls, .value v =>
      match to_class v with
      | some i => .ok (rt, .cls i, [])
      | none => .error (.panicWith castErrMsg)
  | .value, .value v => .ok (rt, .val v, [])
  | .refMut t, .value v =>
      match to_obj t v with
      | some oid =>
          match borrowExclusive rt oid with
          | .ok rt' => .ok (rt', .refMut t oid, [(true, oid)])
          | .error f => .error f
      | none => .error (.panicWith castErrMsg)
  | .ref t, .value v =>
      match to_obj t v with
      | some oid =>
          match borrowShared rt oid with
          | .ok rt' => .ok (rt', .ref t oid, [(false, oid)])
          | .error f => .error f
      | none => .error (.panicWith castErrMsg)
  | _, _ => .error (.panicWith "slot representation mismatch")

/-- The per-slot conversions in declared order (`macros.rs` line 268:
`$( mrfn!(@conv ...) )*`), threading the runtime state and collecting
the acquired borrows; a panic in one conversion aborts the rest, with
the borrows acquired so far reported for the unwind to release. -/
def convAll : Rt → List ParamType → List RawSlot →
    Rt × List (Bool × Nat) × Except HostFault (List Native)
  | rt, [], [] => (rt, [], .ok [])
  | rt, p :: ps, s :: ss =>
      match convSlot rt p s with
      | .error f => (rt, [], .error f)
      | .ok (rt1, n, a) =>
          match convAll rt1 ps ss with
          | (rt2, acq, .error f) => (rt2, a ++ acq, .error f)
          | (rt2, acq, .ok ns) => (rt2, a ++ acq, .ok (n :: ns))
  | rt, _, _ => (rt, [], .error (.panicWith "conversion arity mismatch"))

/-- The receiver binder: the `@slf` arms of `mrfn!` (`macros.rs` lines
271–285), applied to the receiver `Value`.  Every non-`Value` self type
unwraps with the corresponding `to_*().unwrap()` conversion; the two
typed-reference kinds downcast with `to_obj::<T>().unwrap()` and then
borrow. -/
def convSlf (rt : Rt) : ParamType → MrValue → Except HostFault (Rt × Native × List (Bool × Nat))
  | .bool, v =>
      match unwrapOr (to_bool v) castErrMsg with
      | .ok b => .ok (rt, .bool b, [])
      | .error f => .error f
  | .i32, v =>
      match unwrapOr (to_i32 v) castErrMsg with
      | .ok n => .ok (rt, .i32 n, [])
      | .error f => .error f
  | .f64, v =>
      match unwrapOr (to_f64 v) castErrMsg with
      | .ok x => .ok (rt, .f64 x, [])
      | .error f => .error f
  | .str, v =>
      match unwrapOr (to_str v) castErrMsg with
      | .ok cps => .ok (rt, .str cps, [])
      | .error f => .error f
  | .vec, v =>
      match unwrapOr (to_vec v) castErrMsg with
      | .ok es => .ok (rt, .vec es, [])
      | .error f => .error f
  | .cls, v =>
      match unwrapOr (to_class v) castErrMsg with
      | .ok i => .ok (rt, .cls i, [])
      | .error f => .error f
  | .value, v => .ok (rt, .val v, [])
  | .refMut t, v =>
      match unwrapOr (to_obj t v) castErrMsg with
      | .ok oid =>
          match borrowExclusive rt oid with
          | .ok rt' => .ok (rt', .refMut t oid, [(true, oid)])
          | .error f => .error f
      | .error f => .error f
  | .ref t, v =>
      match unwrapOr (to_obj t v) castErrMsg with
      | .ok oid =>
          match borrowShared rt oid with
          | .ok rt' => .ok (rt', .ref t oid, [(false, oid)])
          | .error f => .error f
      | .error f => .error f

/-- Dropping one borrow guard (`Ref` / `RefMut` drop) at the end of the
call activation (or during the panic unwind). -/
def releaseOne (rt : Rt) : Bool × Nat → Rt
  | (true, oid) => setBorrow rt oid .free
  | (false, oid) =>
      match lookupBorrow rt oid with
      | .shared 0 => setBorrow rt oid .free
      | .shared (n + 1) => setBorrow rt oid (.shared n)
      | _ => rt

def releaseAll (rt : Rt) (acq : List (Bool × Nat)) : Rt :=
  acq.foldl releaseOne rt

/-- Everything the generated entry point hands to the closure body after
marshaling: the bound receiver, the converted parameters in declared
order, the materialized variadic tail (a `Vec<Value>` preserving the
runtime array's order), the converted block slot, and the borrows the
activation acquired. -/
structure Marshalled where
  slfNat : Native
  paramNats : List Native
  tailVals : Option (List MrValue)
  blkNat : Option Native
  acquired : List (Bool × Nat)

/-- Stages 2–5 of a generated entry point, in the expansion order of the
four `mrfn!` closure forms (`macros.rs` lines 295–360): bind the
receiver (`@slf`), reserve the uninitialized slots (`@init`), build the
signature string, invoke `mrb_get_args` exactly once, then convert each
slot in declared order (`@conv`), with the block slot converted as a
plain `Value`.  A panic during receiver binding aborts before
extraction; an extraction error aborts before any conversion; a panic
during conversion unwinds, dropping the borrow guards acquired so
far. -/
def runMarshal (st : ParamType) (ps : List ParamType) (form : EntryForm)
    (rt : Rt) (call : CallSite) (slf : MrValue) : Rt × Except MarshalErr Marshalled :=
  match convSlf rt st slf with
  | .error f => (rt, .error (.fault f))
  | .ok (rt1, sn, acq0) =>
      match mrb_get_args (fullSig ps form).data rt1 call with
      | (rt2, .error e) => (rt2, .error (.rubyErr e))
      | (rt2, .ok out) =>
          match convAll rt2 ps out.slots with
          | (rt3, acq, .error f) => (releaseAll rt3 (acq0 ++ acq), .error (.fault f))
          | (rt3, acq, .ok nats) =>
              (rt3, .ok ⟨sn, nats, out.tail, out.blockSlot.map Native.val, acq0 ++ acq⟩)

/-- A registered closure body: from the runtime state and the marshalled
receiver/arguments to a result handle, or a host fault. -/
def Body : Type := Rt → Marshalled → Except HostFault (Rt × MrValue)

/-- One full call activation of a generated entry point: marshaling,
then the closure body, then the automatic release of the activation's
borrows; every host fault — whether raised by a conversion `unwrap()`
or by the closure body — is rescued at this boundary into a `RustPanic`
runtime-level exception, so the function is total and the host process
continues. -/
def runEntry (st : ParamType) (ps : List ParamType) (form : EntryForm) (body : Body)
    (rt : Rt) (call : CallSite) (slf : MrValue) : Rt × Except RubyExc MrValue :=
  match runMarshal st ps form rt call slf with
  | (rt', .error (.rubyErr e)) => (rt', .error e)
  | (rt', .error (.fault f)) => (rt', .error (rescuePanic f))
  | (rt', .ok m) =>
      match body rt' m with
      | .error f => (releaseAll rt' m.acquired, .error (rescuePanic f))
      | .ok (rt2, v) => (releaseAll rt2 m.acquired, .ok v)

/-- The address list passed to `mrb_get_args` by each `mrfn!` form,
described positionally: one cell per declared parameter (`@args` arms,
`macros.rs` lines 188–201), then for the variadic forms the tail
(pointer, count) pair (lines 211–212, 228–229), then for the block
forms the block cell (lines 229, 322). -/
inductive SlotDesc where
  | param (i : Nat)
  | tailPtr
  | tailCount
  | blockCell
deriving DecidableEq

def argDescriptors (n : Nat) : EntryForm → List SlotDesc
  | .plain => (List.range n).map .param
  | .blk => (List.range n).map .param ++ [.blockCell]
  | .rest => (List.range n).map .param ++ [.tailPtr, .tailCount]
  | .restBlk => (List.range n).map .param ++ [.tailPtr, .tailCount, .blockCell]

/-- The statement order of the code generated by the parameterful
`mrfn!` forms (`macros.rs` lines 295–311, 312–328, 329–344, 345–360):
receiver binding, slot reservation, the single extraction call, the
conversions, then the closure body. -/
inductive Phase where
  | slfBind
  | slotReserve
  | extract
  | convert
  | bodyRun
deriving DecidableEq

def mrfnPhases : EntryForm → List Phase :=
  fun _ => [.slfBind, .slotReserve, .extract, .convert, .bodyRun]

/-! ## Concrete fixtures used by the claim theorems -/

/-- A closure body that succeeds and returns `nil`. -/
def bodyOk : Body := fun rt _ => .ok (rt, .nil)

/-- A closure body that panics with the given message. -/
def bodyPanics (msg : String) : Body := fun _ _ => .error (.panicWith msg)

/-- A runtime with no live borrows. -/
def rt0 : Rt := ⟨[], 0⟩

/-- A runtime in which object `0` is exclusively borrowed by an outer,
still-live call activation (the reentrancy scenario of spec §5). -/
def rtEx : Rt := ⟨[(0, .exclusive)], 0⟩

/-- The exception class a caller observes when the value-list conversion
(`@conv (Vec<Value>)`, `macros.rs` line 252) receives a non-container
handle and its failure crosses the entry-point boundary. -/
def vecFailureReport : String :=
  match convSlot rt0 .vec (.value (.fixnum 5)) with
  | .error f => (rescuePanic f).excClass
  | .ok _ => "ok"

/-- The exception class a caller observes when a shared typed-reference
parameter is converted while the same host object is exclusively
borrowed by an outer activation. -/
def reentrantFailureReport : String :=
  match (runEntry .value [.ref 1] .plain bodyOk rtEx ⟨[.object 1 0], none⟩ .nil).2 with
  | .error e => e.excClass
  | .ok _ => "ok"

/-! ## Claim theorems -/

/-- C1 (counterexample): a value-list slot whose handle is not a
container is NOT reported as a `TypeMismatch` condition: the `@conv`
arm runs `to_vec().unwrap()`, the `unwrap()` panics, and the
entry-point boundary rescues the panic as a `RustPanic` exception, so
the caller observes exception class `RustPanic`, not `TypeMismatch`. -/
theorem conv_failure_not_type_mismatch :
    vecFailureReport = "RustPanic" ∧ vecFailureReport ≠ "TypeMismatch" :=
  ⟨rfl, by decide⟩

/-- C1 (amended): every parameter-slot conversion failure — a value-list
slot whose handle is not a container, a non-UTF-8 text slot, a class
slot that is not a class, or a typed-reference slot whose class tag
does not match the requested host type — raises a host-side panic that
the entry-point boundary converts into a recoverable `RustPanic`
runtime-level exception (one uniform kind, not a distinct
`TypeMismatch` condition), never an unrecoverable host abort, and the
failed conversion leaves the runtime's borrow state unchanged. -/
theorem conv_failures_rescued_as_rust_panic (rt : Rt) :
    convSlot rt .vec (.value (.fixnum 5)) = .error (.panicWith castErrMsg) ∧
    convSlot rt .cls (.value (.fixnum 5)) = .error (.panicWith castErrMsg) ∧
    runEntry .value [.str] .plain bodyOk rt ⟨[.mrstring [255]], none⟩ .nil =
      (bumpCalls rt, .error ⟨"RustPanic", utf8ErrMsg⟩) ∧
    runEntry .value [.ref 1] .plain bodyOk rt ⟨[.object 2 7], none⟩ .nil =
      (bumpCalls rt, .error ⟨"RustPanic", castErrMsg⟩) ∧
    (bumpCalls rt).borrows = rt.borrows :=
  ⟨rfl, rfl, rfl, rfl, rfl⟩

/-- C2 (counterexample): a reentrant shared-borrow attempt on an
exclusively borrowed host object does NOT fail with a `BorrowConflict`
condition: the `RefCell` borrow panics and the boundary rescues the
panic as a `RustPanic` exception, so the caller observes exception
class `RustPanic`, not `BorrowConflict`. -/
theorem borrow_failure_not_borrow_conflict :
    reentrantFailureReport = "RustPanic" ∧ reentrantFailureReport ≠ "BorrowConflict" :=
  ⟨rfl, by decide⟩

/-- C2 (amended): a shared typed-reference acquires a shared borrow and
an exclusive typed-reference an exclusive borrow on the Host Object
Binding; every borrow attempt — including reentrant ones made while an
outer activation's borrow is live, since the check reads the binding's
current borrow state — fails with a host panic that the boundary
converts to a `RustPanic` exception (not a distinct `BorrowConflict`
condition) rather than permitting simultaneous exclusive+shared or
double-exclusive access; the receiver binder uses the same machinery. -/
theorem borrow_state_checked (rt : Rt) (t oid : Nat) :
    (lookupBorrow rt oid = .free →
      convSlot rt (.ref t) (.value (.object t oid)) =
        .ok (setBorrow rt oid (.shared 0), .ref t oid, [(false, oid)])) ∧
    (∀ n, lookupBorrow rt oid = .shared n →
      convSlot rt (.ref t) (.value (.object t oid)) =
        .ok (setBorrow rt oid (.shared (n + 1)), .ref t oid, [(false, oid)])) ∧
    (lookupBorrow rt oid = .exclusive →
      convSlot rt (.ref t) (.value (.object t oid)) = .error (.panicWith borrowErrMsg)) ∧
    (lookupBorrow rt oid = .free →
      convSlot rt (.refMut t) (.value (.object t oid)) =
        .ok (setBorrow rt oid .exclusive, .refMut t oid, [(true, oid)])) ∧
    (lookupBorrow rt oid ≠ .free →
      convSlot rt (.refMut t) (.value (.object t oid)) = .error (.panicWith borrowMutErrMsg)) ∧
    (convSlf rt (.ref t) (.object t oid) = convSlot rt (.ref t) (.value (.object t oid))) ∧
    (convSlf rt (.refMut t) (.object t oid) = convSlot rt (.refMut t) (.value (.object t oid))) := by
  refine ⟨?_, ?_, ?_, ?_, ?_, ?_, ?_⟩
  · intro h; simp [convSlot, to_obj, borrowShared, h]
  · intro n h; simp [convSlot, to_obj, borrowShared, h]
  · intro h; simp [convSlot, to_obj, borrowShared, h]
  · intro h; simp [convSlot, to_obj, borrowExclusive, h]
  · intro h
    cases hb : lookupBorrow rt oid with
    | free => exact absurd hb h
    | shared n => simp [convSlot, to_obj, borrowExclusive, hb]
    | exclusive => simp [convSlot, to_obj, borrowExclusive, hb]
  · cases hb : borrowShared rt oid <;>
      simp [convSlf, convSlot, unwrapOr, to_obj, hb]
  · cases hb : borrowExclusive rt oid <;>
      simp [convSlf, convSlot, unwrapOr, to_obj, hb]

theorem borrow_state_checked_witness :
    convSlot rtEx (.ref 1) (.value (.object 1 0)) = .error (.panicWith borrowErrMsg) ∧
    convSlot rt0 (.refMut 1) (.value (.object 1 0)) =
      .ok (setBorrow rt0 0 .exclusive, .refMut 1 0, [(true, 0)]) :=
  ⟨(borrow_state_checked rtEx 1 0).2.2.1 rfl,
   (borrow_state_checked rt0 1 0).2.2.2.1 rfl⟩

/-- C3: every host-side fault raised while running a registered closure
body is intercepted at the entry-point boundary and converted into a
runtime-level `RustPanic` exception carrying the original failure's
message; it never propagates past the boundary as a host-level abort
(the entry point is a total function into runtime-level results), and
the embedding keeps running: a subsequent correct call on the same
runtime succeeds normally. -/
theorem host_fault_intercepted :
    (∀ msg, rescuePanic (.panicWith msg) = ⟨"RustPanic", msg⟩) ∧
    (∀ (st : ParamType) (ps : List ParamType) (form : EntryForm) (body : Body)
       (rt : Rt) (call : CallSite) (slf : MrValue) (rt' : Rt) (m : Marshalled)
       (f : HostFault),
      runMarshal st ps form rt call slf = (rt', .ok m) →
      body rt' m = .error f →
      runEntry st ps form body rt call slf =
        (releaseAll rt' m.acquired, .error (rescuePanic f))) ∧
    (∀ (rt : Rt) (msg : String),
      runEntry .value [] .plain (bodyPanics msg) rt ⟨[], none⟩ .nil =
        (bumpCalls rt, .error ⟨"RustPanic", msg⟩) ∧
      runEntry .value [] .plain bodyOk (bumpCalls rt) ⟨[], none⟩ .nil =
        (bumpCalls (bumpCalls rt), .ok .nil)) := by
  refine ⟨fun msg => rfl, ?_, fun rt msg => ⟨rfl, rfl⟩⟩
  intro st ps form body rt call slf rt' m f h1 h2
  simp [runEntry, h1, h2]

theorem host_fault_intercepted_witness :
    runEntry .value [] .plain (bodyPanics "boom") rt0 ⟨[], none⟩ .nil =
      (releaseAll (bumpCalls rt0) [], .error (rescuePanic (.panicWith "boom"))) :=
  (host_fault_intercepted.2.1 .value [] .plain (bodyPanics "boom") rt0
    ⟨[], none⟩ .nil (bumpCalls rt0) ⟨.val .nil, [], none, none, []⟩
    (.panicWith "boom") rfl rfl)

/-- C7: a method registered with the block marker and invoked with no
block at the call site receives the runtime's "no block given" sentinel
(`nil`) in the block slot — not a failure: marshaling succeeds, the
block cell is one raw value handle, and it is converted as a plain
opaque `Value`; when a block is supplied, the same cell holds it. -/
theorem no_block_yields_sentinel (rt : Rt) (b : MrValue) :
    runMarshal .value [] .blk rt ⟨[], none⟩ .nil =
      (bumpCalls rt, .ok ⟨.val .nil, [], none, some (.val .nil), []⟩) ∧
    runMarshal .value [] .blk rt ⟨[], some b⟩ .nil =
      (bumpCalls rt, .ok ⟨.val .nil, [], none, some (.val b), []⟩) :=
  ⟨rfl, rfl⟩

/-- C10: generated entry points accept receiver self-types beyond
opaque `Value` and the two typed-reference kinds — `bool`, `i32`,
`f64`, `(&str)`, `(Vec<Value>)` and `Class` receivers convert with the
corresponding unwrapping `to_*().unwrap()` conversion — and a receiver
whose dynamic type does not match the declared self-type causes a
host-side panic (a `HostFault`, surfacing as `RustPanic` past the
boundary), not a recoverable `TypeMismatch` condition raised by the
converter itself. -/
theorem receiver_self_types (rt : Rt) :
    convSlf rt .bool (.boolean true) = .ok (rt, .bool true, []) ∧
    convSlf rt .i32 (.fixnum 5) = .ok (rt, .i32 5, []) ∧
    convSlf rt .f64 (.float 3) = .ok (rt, .f64 3, []) ∧
    convSlf rt .str (.mrstring [104, 105]) = .ok (rt, .str [104, 105], []) ∧
    convSlf rt .vec (.array [.nil]) = .ok (rt, .vec [.nil], []) ∧
    convSlf rt .cls (.mrclass 2) = .ok (rt, .cls 2, []) ∧
    convSlf rt .bool (.fixnum 3) = .error (.panicWith castErrMsg) ∧
    convSlf rt .i32 (.boolean true) = .error (.panicWith castErrMsg) ∧
    convSlf rt .vec (.fixnum 3) = .error (.panicWith castErrMsg) ∧
    (runEntry .bool [] .plain bodyOk rt ⟨[], none⟩ (.fixnum 3)).2 =
      .error ⟨"RustPanic", castErrMsg⟩ :=
  ⟨rfl, rfl, rfl, rfl, rfl, rfl, rfl, rfl, rfl, rfl⟩

/-! ## Dynamic-type agreement between declared shapes and converted values -/

/-- Whether a converted native value has exactly the dynamic type the
declared parameter shape promises (spec §8, first two properties). -/
def natMatches : ParamType → Native → Bool
  | .bool, .bool _ => true
  | .i32, .i32 n => decide (-2147483648 ≤ n ∧ n < 2147483648)
  | .f64, .f64 _ => true
  | .str, .str _ => true
  | .vec, .vec _ => true
  | .cls, .cls _ => true
  | .value, .val _ => true
  | .ref t, .ref u _ => t == u
  | .refMut t, .refMut u _ => t == u
  | _, _ => false

theorem borrowShared_calls (rt : Rt) (oid : Nat) (rt' : Rt)
    (h : borrowShared rt oid = .ok rt') : rt'.getArgsCalls = rt.getArgsCalls := by
  unfold borrowShared at h
  split at h
  · exact Except.noConfusion h
  · injection h with h; subst h; rfl
  · injection h with h; subst h; rfl

theorem borrowExclusive_calls (rt : Rt) (oid : Nat) (rt' : Rt)
    (h : borrowExclusive rt oid = .ok rt') : rt'.getArgsCalls = rt.getArgsCalls := by
  unfold borrowExclusive at h
  split at h
  · injection h with h; subst h; rfl
  · exact Except.noConfusion h

theorem convSlot_types (rt : Rt) (p : ParamType) (s : RawSlot) (rt' : Rt)
    (n : Native) (a : List (Bool × Nat))
    (h : convSlot rt p s = .ok (rt', n, a)) : natMatches p n = true := by
  unfold convSlot at h
  repeat' split at h
  all_goals simp at h
  all_goals obtain ⟨h1, h2, h3⟩ := h
  all_goals subst h2
  all_goals simp [natMatches]
  exact wrapI32_range _

def NatsMatch (ps : List ParamType) (ns : List Native) : Prop :=
  List.Forall₂ (fun p n => natMatches p n = true) ps ns

theorem convAll_types :
    ∀ (ps : List ParamType) (rt : Rt) (ss : List RawSlot) (rt' : Rt)
      (acq : List (Bool × Nat)) (ns : List Native),
      convAll rt ps ss = (rt', acq, .ok ns) → NatsMatch ps ns := by
  intro ps
  induction ps with
  | nil =>
      intro rt ss rt' acq ns h
      cases ss with
      | nil =>
          simp [convAll] at h
          simp [NatsMatch, h]
      | cons s ss' => simp [convAll] at h
  | cons p ps ih =>
      intro rt ss rt' acq ns h
      cases ss with
      | nil => simp [convAll] at h
      | cons s ss' =>
          rw [convAll] at h
          split at h
          · simp at h
          · rename_i rt1 n1 a1 hc
            split at h
            · simp at h
            · rename_i rt2 acq2 ns' hr
              simp at h
              obtain ⟨-, -, hns⟩ := h
              subst hns
              exact List.Forall₂.cons (convSlot_types rt p s rt1 n1 a1 hc)
                (ih rt1 ss' rt2 acq2 ns' hr)

theorem runMarshal_types (st : ParamType) (ps : List ParamType) (form : EntryForm)
    (rt : Rt) (call : CallSite) (slf : MrValue) (rt' : Rt) (m : Marshalled)
    (h : runMarshal st ps form rt call slf = (rt', .ok m)) :
    NatsMatch ps m.paramNats ∧ m.paramNats.length = ps.length := by
  unfold runMarshal at h
  split at h
  · simp at h
  · rename_i rt1 sn acq0 hs
    split at h
    · simp at h
    · rename_i rt2 out hg
      split at h
      · simp at h
      · rename_i rt3 acq ns hv
        simp at h
        obtain ⟨-, hm⟩ := h
        subst hm
        have hmat := convAll_types ps rt2 out.slots rt3 acq ns hv
        exact ⟨hmat, hmat.length_eq.symm⟩

/-- C6: for every call that satisfies the declared signature, extraction
followed by per-slot conversion in declared order yields native values
whose dynamic types match the declared shape exactly (booleans,
integers in `i32` range, floats, text views, `Vec<Value>` sequences,
`Class` handles, wrapped `Value`s, and borrowed/mutably-borrowed typed
references); in particular a method of shape `[i32, i32]` called with
two integers sees the two correctly-typed native integers. -/
theorem conversion_matches_declared_shape :
    (∀ (st : ParamType) (ps : List ParamType) (form : EntryForm) (rt : Rt)
       (call : CallSite) (slf : MrValue) (rt' : Rt) (m : Marshalled),
      runMarshal st ps form rt call slf = (rt', .ok m) →
      NatsMatch ps m.paramNats ∧ m.paramNats.length = ps.length) ∧
    (∀ rt : Rt,
      runMarshal .value [.i32, .i32] .plain rt ⟨[.fixnum 1, .fixnum 2], none⟩ .nil =
        (bumpCalls rt, .ok ⟨.val .nil, [.i32 1, .i32 2], none, none, []⟩)) :=
  ⟨runMarshal_types, fun _ => rfl⟩

theorem conversion_matches_declared_shape_witness :
    NatsMatch [.i32, .i32] [.i32 1, .i32 2] :=
  (conversion_matches_declared_shape.1 .value [.i32, .i32] .plain rt0
    ⟨[.fixnum 1, .fixnum 2], none⟩ .nil (bumpCalls rt0)
    ⟨.val .nil, [.i32 1, .i32 2], none, none, []⟩ rfl).1

/-! ## Extraction fills every reserved slot with a value of its code's type -/

/-- Whether a raw slot holds a value of the representation implied by a
signature code (the extractor's per-cell contract, spec §4.3). -/
def slotMatches (c : Char) (s : RawSlot) : Bool :=
  if c = 'b' then match s with | .bool _ => true | _ => false
  else if c = 'i' then match s with | .int _ => true | _ => false
  else if c = 'f' then match s with | .float _ => true | _ => false
  else if c = 'z' then match s with | .cstr _ => true | _ => false
  else if c = 'A' then match s with | .value (.array _) => true | _ => false
  else if c = 'C' then match s with | .value (.mrclass _) => true | _ => false
  else if c = 'o' then match s with | .value _ => true | _ => false
  else false

theorem extractOne_matches (c : Char) (v : MrValue) (s : RawSlot)
    (h : extractOne c v = some s) : slotMatches c s = true := by
  unfold extractOne at h
  unfold slotMatches
  split_ifs at h ⊢ <;> (try cases v) <;> simp_all
  all_goals (subst h; rfl)

/-- The trailing marker characters each `mrfn!` form appends to the
compiled signature. -/
def formSuffix : EntryForm → List Char
  | .plain => []
  | .blk => ['&']
  | .rest => ['*']
  | .restBlk => ['*', '&']

theorem data_amp : "&".data = ['&'] := rfl

theorem data_star : "*".data = ['*'] := rfl

theorem data_star_amp : "*&".data = ['*', '&'] := rfl

theorem fullSig_data (ps : List ParamType) (form : EntryForm) :
    (fullSig ps form).data = ps.map sigChar ++ formSuffix form := by
  cases form <;>
    simp [fullSig, formSuffix, string_data_append, compileSig_data,
      data_amp, data_star, data_star_amp]

/-- The extractor's contract for each of the four signature shapes: on
success every reserved slot holds a value of its code's type (full
initialization before any conversion reads it), the tail cell holds the
whole remaining argument list exactly for the variadic forms, and the
block cell holds the block (or the `nil` sentinel) exactly for the
block forms. -/
theorem mrbLoop_spec (form : EntryForm) :
    ∀ (ps : List ParamType) (vs : List MrValue) (blk : Option MrValue) (out : ExtractOut),
      mrbLoop (fullSig ps form).data vs blk = .ok out →
      List.Forall₂ (fun p s => slotMatches (sigChar p) s = true) ps out.slots ∧
      out.tail = (if form = .rest ∨ form = .restBlk then some (vs.drop ps.length) else none) ∧
      out.blockSlot = (if form = .blk ∨ form = .restBlk then some (blk.getD .nil) else none) := by
  intro ps
  induction ps with
  | nil =>
      intro vs blk out h
      rw [fullSig_data] at h
      cases form with
      | plain =>
          cases vs with
          | nil =>
              injection h with h
              subst h
              exact ⟨List.Forall₂.nil, by simp, by simp⟩
          | cons v vs' => exact Except.noConfusion h
      | blk =>
          cases vs with
          | nil =>
              injection h with h
              subst h
              exact ⟨List.Forall₂.nil, by simp, by simp⟩
          | cons v vs' => exact Except.noConfusion h
      | rest =>
          injection h with h
          subst h
          exact ⟨List.Forall₂.nil, by simp, by simp⟩
      | restBlk =>
          injection h with h
          subst h
          exact ⟨List.Forall₂.nil, by simp, by simp⟩
  | cons p ps ih =>
      intro vs blk out h
      rw [fullSig_data] at h
      simp only [List.map_cons, List.cons_append] at h
      rw [mrbLoop.eq_def] at h
      dsimp only at h
      rw [if_neg (sigChar_ne_star p), if_neg (sigChar_ne_amp p)] at h
      cases vs with
      | nil => exact Except.noConfusion h
      | cons v vs' =>
          dsimp only at h
          cases he : extractOne (sigChar p) v with
          | none => rw [he] at h; exact Except.noConfusion h
          | some s =>
              rw [he] at h
              cases hm : mrbLoop (ps.map sigChar ++ formSuffix form) vs' blk with
              | error e => rw [hm] at h; exact Except.noConfusion h
              | ok out' =>
                  rw [hm] at h
                  injection h with h
                  subst h
                  have hm' : mrbLoop (fullSig ps form).data vs' blk = .ok out' := by
                    rw [fullSig_data]; exact hm
                  have hrec := ih vs' blk out' hm'
                  exact ⟨List.Forall₂.cons (extractOne_matches (sigChar p) v s he) hrec.1,
                    hrec.2.1, hrec.2.2⟩

/-! ## The extractor runs exactly once per activation -/

theorem convSlot_calls (rt : Rt) (p : ParamType) (s : RawSlot) (rt' : Rt)
    (n : Native) (a : List (Bool × Nat)) (h : convSlot rt p s = .ok (rt', n, a)) :
    rt'.getArgsCalls = rt.getArgsCalls := by
  unfold convSlot at h
  repeat' split at h
  all_goals simp at h
  all_goals obtain ⟨h1, h2, h3⟩ := h
  all_goals subst h1
  all_goals try rfl
  all_goals rename_i hb
  all_goals
    first
      | exact borrowShared_calls _ _ _ hb
      | exact borrowExclusive_calls _ _ _ hb

theorem convSlf_calls (rt : Rt) (st : ParamType) (slf : MrValue) (rt' : Rt)
    (n : Native) (a : List (Bool × Nat)) (h : convSlf rt st slf = .ok (rt', n, a)) :
    rt'.getArgsCalls = rt.getArgsCalls := by
  unfold convSlf at h
  repeat' split at h
  all_goals simp at h
  all_goals obtain ⟨h1, h2, h3⟩ := h
  all_goals subst h1
  all_goals try rfl
  all_goals rename_i hb
  all_goals
    first
      | exact borrowShared_calls _ _ _ hb
      | exact borrowExclusive_calls _ _ _ hb

theorem convAll_calls :
    ∀ (ps : List ParamType) (rt : Rt) (ss : List RawSlot),
      (convAll rt ps ss).1.getArgsCalls = rt.getArgsCalls := by
  intro ps
  induction ps with
  | nil => intro rt ss; cases ss <;> rfl
  | cons p ps ih =>
      intro rt ss
      cases ss with
      | nil => rfl
      | cons s ss' =>
          cases hc : convSlot rt p s with
          | error f => simp [convAll, hc]
          | ok trip =>
              obtain ⟨rt1, n1, a1⟩ := trip
              rcases hr : convAll rt1 ps ss' with ⟨rt2, acq2, res⟩
              have h2 : rt2.getArgsCalls = rt1.getArgsCalls := by
                have h3 := ih rt1 ss'
                rw [hr] at h3
                exact h3
              have h1 := convSlot_calls rt p s rt1 n1 a1 hc
              cases res <;> simp [convAll, hc, hr] <;> exact h2.trans h1

theorem releaseOne_calls (rt : Rt) (x : Bool × Nat) :
    (releaseOne rt x).getArgsCalls = rt.getArgsCalls := by
  obtain ⟨b, oid⟩ := x
  cases b with
  | true => rfl
  | false =>
      simp only [releaseOne]
      split <;> rfl

theorem releaseAll_calls :
    ∀ (acq : List (Bool × Nat)) (rt : Rt),
      (releaseAll rt acq).getArgsCalls = rt.getArgsCalls := by
  intro acq
  induction acq with
  | nil => intro rt; rfl
  | cons x xs ih =>
      intro rt
      exact (ih (releaseOne rt x)).trans (releaseOne_calls rt x)

theorem runMarshal_calls_ok (st : ParamType) (ps : List ParamType) (form : EntryForm)
    (rt : Rt) (call : CallSite) (slf : MrValue) (rt1 : Rt) (sn : Native)
    (acq0 : List (Bool × Nat)) (hs : convSlf rt st slf = .ok (rt1, sn, acq0)) :
    (runMarshal st ps form rt call slf).1.getArgsCalls = rt.getArgsCalls + 1 := by
  have hst := convSlf_calls rt st slf rt1 sn acq0 hs
  rcases hm : mrbLoop (fullSig ps form).data call.args call.blockArg with e | out
  · simp [runMarshal, mrb_get_args, hs, hm, bumpCalls, hst]
  · rcases hv : convAll (bumpCalls rt1) ps out.slots with ⟨rt3, acq, res⟩
    have h3 : rt3.getArgsCalls = rt1.getArgsCalls + 1 := by
      have h4 := convAll_calls ps (bumpCalls rt1) out.slots
      rw [hv] at h4
      exact h4
    cases res with
    | error f =>
        simp [runMarshal, mrb_get_args, hs, hm, hv, releaseAll_calls, h3, hst]
    | ok ns =>
        simp [runMarshal, mrb_get_args, hs, hm, hv, h3, hst]

theorem runMarshal_noSelf (st : ParamType) (ps : List ParamType) (form : EntryForm)
    (rt : Rt) (call : CallSite) (slf : MrValue) (f : HostFault)
    (hs : convSlf rt st slf = .error f) :
    runMarshal st ps form rt call slf = (rt, .error (.fault f)) := by
  simp [runMarshal, hs]

/-- C8: in every generated entry point the expansion order is fixed —
receiver binding, slot reservation, the single extraction call, then
the conversions, then the body — so each reserved slot (initially
uninitialized) is fully written by the argument extractor, with a value
of its signature code's representation, before the type converter
reads it; when extraction fails, the pipeline aborts without running
any conversion (the borrow map is untouched).  Slots are call-scoped
values of `runMarshal`, never stored in `Rt`, so they are not reused
across activations and cannot escape the activation. -/
theorem slots_filled_before_conversion :
    (∀ form : EntryForm,
      mrfnPhases form = [.slfBind, .slotReserve, .extract, .convert, .bodyRun] ∧
      (mrfnPhases form).count .extract = 1 ∧
      (mrfnPhases form).indexOf .slotReserve < (mrfnPhases form).indexOf .extract ∧
      (mrfnPhases form).indexOf .extract < (mrfnPhases form).indexOf .convert) ∧
    (∀ (form : EntryForm) (ps : List ParamType) (vs : List MrValue)
       (blk : Option MrValue) (out : ExtractOut),
      mrbLoop (fullSig ps form).data vs blk = .ok out →
      List.Forall₂ (fun p s => slotMatches (sigChar p) s = true) ps out.slots ∧
      out.slots.length = ps.length) ∧
    (∀ (ps : List ParamType) (form : EntryForm) (rt : Rt) (call : CallSite)
       (slf : MrValue) (e : RubyExc),
      mrbLoop (fullSig ps form).data call.args call.blockArg = .error e →
      runMarshal .value ps form rt call slf = (bumpCalls rt, .error (.rubyErr e)) ∧
      (bumpCalls rt).borrows = rt.borrows) := by
  refine ⟨?_, ?_, ?_⟩
  · intro form; cases form <;> exact ⟨rfl, by decide, by decide, by decide⟩
  · intro form ps vs blk out h
    have hs := (mrbLoop_spec form ps vs blk out h).1
    exact ⟨hs, hs.length_eq.symm⟩
  · intro ps form rt call slf e h
    exact ⟨by simp [runMarshal, mrb_get_args, convSlf, h], rfl⟩

theorem slots_filled_before_conversion_witness :
    (List.Forall₂ (fun p s => slotMatches (sigChar p) s = true)
        [ParamType.i32] [RawSlot.int 3] ∧
      [RawSlot.int 3].length = [ParamType.i32].length) ∧
    runMarshal .value [.i32] .plain rt0 ⟨[], none⟩ .nil =
      (bumpCalls rt0, .error (.rubyErr argErr)) :=
  ⟨slots_filled_before_conversion.2.1 .plain [.i32] [.fixnum 3] none
      ⟨[.int 3], none, none⟩ rfl,
   (slots_filled_before_conversion.2.2 [.i32] .plain rt0 ⟨[], none⟩ .nil argErr rfl).1⟩

/-- C5: every generated entry point invokes the runtime's variadic
argument-parsing primitive exactly once per call activation (the
instrumentation counter grows by exactly one once the receiver is
bound, on success and on every failure path alike, and not at all if
receiver binding aborts first), passing the compiled signature and the
reserved cells in declared order with the variadic (pointer, count)
pair last-but-one and the block cell last; on success of a variadic
form the tail cell holds the runtime-owned argument array (zero length
valid), and it is materialized as an ordered sequence of `Value`
preserving element order. -/
theorem extraction_runs_once_in_declared_order :
    (∀ (n : Nat) (form : EntryForm),
      (argDescriptors n form).take n = (List.range n).map SlotDesc.param) ∧
    (∀ n : Nat,
      (argDescriptors n .plain).drop n = [] ∧
      (argDescriptors n .blk).drop n = [.blockCell] ∧
      (argDescriptors n .rest).drop n = [.tailPtr, .tailCount] ∧
      (argDescriptors n .restBlk).drop n = [.tailPtr, .tailCount, .blockCell]) ∧
    (∀ (st : ParamType) (ps : List ParamType) (form : EntryForm) (rt : Rt)
       (call : CallSite) (slf : MrValue) (rt1 : Rt) (sn : Native)
       (acq0 : List (Bool × Nat)),
      convSlf rt st slf = .ok (rt1, sn, acq0) →
      (runMarshal st ps form rt call slf).1.getArgsCalls = rt.getArgsCalls + 1) ∧
    (∀ (st : ParamType) (ps : List ParamType) (form : EntryForm) (rt : Rt)
       (call : CallSite) (slf : MrValue) (f : HostFault),
      convSlf rt st slf = .error f →
      runMarshal st ps form rt call slf = (rt, .error (.fault f))) ∧
    (∀ (ps : List ParamType) (form : EntryForm) (vs : List MrValue)
       (blk : Option MrValue) (out : ExtractOut),
      form = .rest ∨ form = .restBlk →
      mrbLoop (fullSig ps form).data vs blk = .ok out →
      out.tail = some (vs.drop ps.length)) ∧
    (∀ (st : ParamType) (ps : List ParamType) (rt : Rt) (call : CallSite)
       (slf : MrValue) (rt' : Rt) (m : Marshalled),
      runMarshal st ps .rest rt call slf = (rt', .ok m) →
      m.tailVals = some (call.args.drop ps.length)) := by
  refine ⟨?_, ?_, runMarshal_calls_ok, runMarshal_noSelf, ?_, ?_⟩
  · intro n form
    have hl : ((List.range n).map SlotDesc.param).length = n := by simp
    cases form <;>
      simp [argDescriptors, List.take_append_eq_append_take, hl,
        List.take_of_length_le (le_of_eq hl)]
  · intro n
    have hl : ((List.range n).map SlotDesc.param).length = n := by simp
    refine ⟨?_, ?_, ?_, ?_⟩ <;>
      simp [argDescriptors, List.drop_append_eq_append_drop, hl,
        List.drop_eq_nil_of_le hl.le]
  · intro ps form vs blk out hform h
    have ht := (mrbLoop_spec form ps vs blk out h).2.1
    rcases hform with rfl | rfl <;> simpa using ht
  · intro st ps rt call slf rt' m h
    unfold runMarshal at h
    split at h
    · simp at h
    · rename_i rt1 sn acq0 hs
      split at h
      · simp at h
      · rename_i rt2 out hg
        split at h
        · simp at h
        · rename_i rt3 acq ns hv
          simp at h
          obtain ⟨-, hm⟩ := h
          subst hm
          have hout : mrbLoop (fullSig ps .rest).data call.args call.blockArg = .ok out :=
            congrArg Prod.snd hg
          have ht := (mrbLoop_spec .rest ps call.args call.blockArg out hout).2.1
          simpa using ht

theorem extraction_runs_once_in_declared_order_witness :
    (runMarshal .value [] .plain rt0 ⟨[], none⟩ .nil).1.getArgsCalls =
      rt0.getArgsCalls + 1 ∧
    (⟨[], some [], none⟩ : ExtractOut).tail = some (List.drop 0 ([] : List MrValue)) :=
  ⟨extraction_runs_once_in_declared_order.2.2.1 .value [] .plain rt0 ⟨[], none⟩ .nil
      rt0 (.val .nil) [] rfl,
   extraction_runs_once_in_declared_order.2.2.2.2.1 [] .rest [] none
      ⟨[], some [], none⟩ (Or.inl rfl) rfl⟩

end Mrusty
